import Mathlib

/-!
Shallow embedding of the solar-farm estimator (src/app.py and src/APP_Pro.py).

Numeric values are modelled as exact rationals (ℚ).  Python `math.floor` /
float floor-division is `Int.floor`; Python `int(...)` truncation toward zero
is `pyInt`; Python `round(x, 2)` (round-half-to-even on the scaled value) is
`round2`.  Streamlit widget globals become explicit parameters.  The shapely
library used by APP_Pro.py (polygon area, `buffer`, `contains`) is a third-party
dependency of the repository, so its primitives enter the model as explicit
function parameters: a containment test `ℚ × ℚ × ℚ × ℚ → Bool` for panel
rectangles, and a buffering oracle `ℚ → Option ℚ` / `ℚ → Option α` returning
`none` exactly when the eroded shape is empty or invalid.  Trigonometric
helpers (`shadow_length`) only produce the `shadow` scalar, which is threaded
through as an arbitrary rational parameter.
-/

/-- Python `int(x)` truncation toward zero on a rational. -/
def pyInt (q : ℚ) : ℤ := if 0 ≤ q then ⌊q⌋ else ⌈q⌉

/-- Python `round(x)` to an integer: round half to even. -/
def roundHalfEven (q : ℚ) : ℤ :=
  if q - ⌊q⌋ < 1/2 then ⌊q⌋
  else if 1/2 < q - ⌊q⌋ then ⌊q⌋ + 1
  else if 2 ∣ ⌊q⌋ then ⌊q⌋ else ⌊q⌋ + 1

/-- Python `round(x, 2)`: round to 2 decimal places, half to even. -/
def round2 (q : ℚ) : ℚ := (roundHalfEven (q * 100) : ℚ) / 100

/-- app.py `critical_solar_angle(lat) = 90 - lat + 23.45`. -/
def critical_solar_angle (lat : ℚ) : ℚ := 90 - lat + 469/20

/-- app.py / APP_Pro.py `estimate_shading_loss(spacing, shadow)`.  The global
`panel_width` becomes the first parameter; the `shadow` argument is accepted
but, exactly as in the source, never read. -/
def estimate_shading_loss (panel_width spacing shadow : ℚ) : ℚ :=
  let gcr := panel_width / spacing
  if gcr ≥ 7/10 then 12/100
  else if gcr ≥ 6/10 then 8/100
  else if gcr ≥ 5/10 then 5/100
  else if gcr ≥ 4/10 then 3/100
  else if gcr ≥ 3/10 then 15/1000
  else 1/100

/-- Run-time behaviour of `estimate_shading_loss` under Python semantics:
`panel_width / spacing` raises `ZeroDivisionError` when `spacing = 0`
(modelled as `none`); for any other spacing, positive or negative, the
function returns a value. -/
def estimate_shading_loss_run (panel_width spacing shadow : ℚ) : Option ℚ :=
  if spacing = 0 then none else some (estimate_shading_loss panel_width spacing shadow)

/-- Modelled from the spec (§4.2): `shadingLossFraction(gcr)`, the step lookup
the spec describes, as a function of the ground-coverage ratio itself.  Used
to compare the source's `estimate_shading_loss` against the spec's wording. -/
def shadingLossFraction (gcr : ℚ) : ℚ :=
  if gcr ≥ 7/10 then 12/100
  else if gcr ≥ 6/10 then 8/100
  else if gcr ≥ 5/10 then 5/100
  else if gcr ≥ 4/10 then 3/100
  else if gcr ≥ 3/10 then 15/1000
  else 1/100

/-- app.py `frange(start, stop, step)`: yields `round(start, 2)` while
`start <= stop`, incrementing the unrounded accumulator by `step`. -/
def frange (start stop step : ℚ) : List ℚ :=
  if h : 0 < step ∧ start ≤ stop then
    round2 start :: frange (start + step) stop step
  else []
termination_by (⌊(stop - start) / step⌋ + 1).toNat
decreasing_by
  obtain ⟨hs, hle⟩ := h
  have hf : (0 : ℤ) ≤ ⌊(stop - start) / step⌋ :=
    Int.floor_nonneg.mpr (div_nonneg (by linarith) hs.le)
  have heq : (stop - (start + step)) / step = (stop - start) / step - 1 := by
    field_simp
    ring
  have hfl : ⌊(stop - start) / step - 1⌋ = ⌊(stop - start) / step⌋ - 1 := by
    have h1 := Int.floor_sub_int ((stop - start) / step) 1
    simpa using h1
  rw [heq, hfl]
  omega

/-- app.py line 134: `row_spacings = [round(s, 2) for s in
frange(min_spacing, max_spacing + 0.01, 0.1)]`. -/
def row_spacings (min_spacing max_spacing : ℚ) : List ℚ :=
  (frange min_spacing (max_spacing + 1/100) (1/10)).map round2

/-- Number of spacing values the sweep produces (closed form, used to state
what `row_spacings` computes). -/
def sweepCount (min_spacing max_spacing : ℚ) : ℕ :=
  if min_spacing ≤ max_spacing + 1/100 then
    (⌊(max_spacing + 1/100 - min_spacing) * 10⌋ + 1).toNat
  else 0

/-- app.py line 146: `rows_possible = math.floor(land_length / spacing)`. -/
def rows_possible (land_length spacing : ℚ) : ℤ := ⌊land_length / spacing⌋

/-- app.py line 148: `panels_per_row = math.floor(land_width / panel_spacing_width)`. -/
def panels_per_row (land_width panel_spacing_width : ℚ) : ℤ :=
  ⌊land_width / panel_spacing_width⌋

/-- app.py lines 146–157: the rectangular fast-path panel count for one swept
spacing, including the area-correction branch. -/
def total_panels_swept (panel_width panel_gap land_length land_width effective_land_area spacing : ℚ) : ℤ :=
  let panel_spacing_width := panel_width + panel_gap
  let gross_panels := panels_per_row land_width panel_spacing_width * rows_possible land_length spacing
  let area_per_panel := spacing * panel_spacing_width
  let total_area_panels := (gross_panels : ℚ) * area_per_panel
  if total_area_panels > effective_land_area then
    pyInt ((gross_panels : ℚ) * (effective_land_area / total_area_panels))
  else gross_panels

/-- app.py lines 146–162: the body of the spacing sweep loop, producing one
`(spacing, total_panels, total_energy)` entry.  Note line 160:
`yield_per_panel = irradiance * pr * (1 - shading_loss)` — no panel-capacity
factor. -/
def sweepBody (panel_width panel_gap land_length land_width effective_land_area irradiance pr shadow spacing : ℚ) : ℚ × ℤ × ℚ :=
  let total_panels := total_panels_swept panel_width panel_gap land_length land_width effective_land_area spacing
  let shading_loss := estimate_shading_loss panel_width spacing shadow
  let yield_per_panel := irradiance * pr * (1 - shading_loss)
  (spacing, total_panels, yield_per_panel * (total_panels : ℚ))

/-- app.py lines 144–162: `spacing_results`, one entry appended per swept
spacing, in the sweep's order. -/
def spacing_results (panel_width panel_gap land_length land_width effective_land_area irradiance pr shadow min_spacing max_spacing : ℚ) : List (ℚ × ℤ × ℚ) :=
  (row_spacings min_spacing max_spacing).map
    (sweepBody panel_width panel_gap land_length land_width effective_land_area irradiance pr shadow)

/-- app.py lines 177–179: panel count for the selected spacing, with the
user override superseding the derived count when positive. -/
def total_panels_exact (user_defined_panels mounts_per_row panels_per_mount : ℤ) (land_length selected_spacing : ℚ) : ℤ :=
  if user_defined_panels > 0 then user_defined_panels
  else (mounts_per_row * panels_per_mount) * rows_possible land_length selected_spacing

/-- app.py line 181: `yield_per_panel_exact = irradiance * panel_capacity_kw
* pr * (1 - shading_selected)`. -/
def yield_per_panel_exact (irradiance panel_capacity_kw pr panel_width selected_spacing shadow : ℚ) : ℚ :=
  irradiance * panel_capacity_kw * pr *
    (1 - estimate_shading_loss panel_width selected_spacing shadow)

/-- app.py line 182: `total_energy_exact = yield_per_panel_exact * total_panels_exact`. -/
def total_energy_exact (irradiance panel_capacity_kw pr panel_width selected_spacing shadow : ℚ) (user_defined_panels mounts_per_row panels_per_mount : ℤ) (land_length : ℚ) : ℚ :=
  yield_per_panel_exact irradiance panel_capacity_kw pr panel_width selected_spacing shadow *
    (total_panels_exact user_defined_panels mounts_per_row panels_per_mount land_length selected_spacing : ℚ)

/-- APP_Pro.py lines 253–258: `validate_polygon(coords)`. -/
def validate_polygon (coords : List (ℚ × ℚ)) : Bool :=
  if coords.length < 4 then false
  else if coords.head? ≠ coords.getLast? then false
  else true

/-- Minimum x coordinate of a coordinate list (shapely `bounds[0]`). -/
def poly_minx (coords : List (ℚ × ℚ)) : ℚ :=
  match coords with
  | [] => 0
  | p :: ps => ps.foldl (fun a q => min a q.1) p.1

/-- Minimum y coordinate of a coordinate list (shapely `bounds[1]`). -/
def poly_miny (coords : List (ℚ × ℚ)) : ℚ :=
  match coords with
  | [] => 0
  | p :: ps => ps.foldl (fun a q => min a q.2) p.2

/-- Maximum x coordinate of a coordinate list (shapely `bounds[2]`). -/
def poly_maxx (coords : List (ℚ × ℚ)) : ℚ :=
  match coords with
  | [] => 0
  | p :: ps => ps.foldl (fun a q => max a q.1) p.1

/-- Maximum y coordinate of a coordinate list (shapely `bounds[3]`). -/
def poly_maxy (coords : List (ℚ × ℚ)) : ℚ :=
  match coords with
  | [] => 0
  | p :: ps => ps.foldl (fun a q => max a q.2) p.2

/-- APP_Pro.py line 400: `box(x, y, x + panel_width, y + panel_height)`. -/
def panel_box (x y panel_width panel_height : ℚ) : ℚ × ℚ × ℚ × ℚ :=
  (x, y, x + panel_width, y + panel_height)

/-- APP_Pro.py lines 395–403: the nested placement loop's counter
(`panel_count += 1` on each contained panel), rows outer, columns inner,
both ascending from the bounding-box minimum corner.  `containsP` is the
shapely `usable_polygon.contains` test, a third-party-library primitive. -/
def panel_count_loop (containsP : ℚ × ℚ × ℚ × ℚ → Bool) (minx miny panel_spacing_width row_spacing panel_width panel_height : ℚ) (nrows ncols : ℕ) : ℕ :=
  (List.range nrows).foldl (fun acc (row : ℕ) =>
    (List.range ncols).foldl (fun acc2 (col : ℕ) =>
      if containsP (panel_box (minx + (col : ℚ) * panel_spacing_width)
          (miny + (row : ℚ) * row_spacing) panel_width panel_height)
      then acc2 + 1 else acc2) acc) 0

/-- APP_Pro.py lines 395–403: the accepted panel placements (lower-left
corners), in the loop's row-major order. -/
def placed_panels (containsP : ℚ × ℚ × ℚ × ℚ → Bool) (minx miny panel_spacing_width row_spacing panel_width panel_height : ℚ) (nrows ncols : ℕ) : List (ℚ × ℚ) :=
  ((List.range nrows).map (fun (row : ℕ) =>
    (List.range ncols).filterMap (fun (col : ℕ) =>
      if containsP (panel_box (minx + (col : ℚ) * panel_spacing_width)
          (miny + (row : ℚ) * row_spacing) panel_width panel_height)
      then some (minx + (col : ℚ) * panel_spacing_width, miny + (row : ℚ) * row_spacing)
      else none))).flatten

/-- APP_Pro.py lines 380–386: bounding box of the usable polygon and the
grid dimensions `possible_rows = int(total_height // row_spacing)`,
`panels_per_row = int(total_width // panel_spacing_width)`, followed by the
placement loop; returns (placed count, possible rows, panels per row). -/
def polygon_layout (containsP : ℚ × ℚ × ℚ × ℚ → Bool) (coords : List (ℚ × ℚ)) (panel_width panel_gap panel_height row_spacing : ℚ) : ℕ × ℤ × ℤ :=
  let panel_spacing_width := panel_width + panel_gap
  let total_height := poly_maxy coords - poly_miny coords
  let total_width := poly_maxx coords - poly_minx coords
  let possible_rows := ⌊total_height / row_spacing⌋
  let ppr := ⌊total_width / panel_spacing_width⌋
  (panel_count_loop containsP (poly_minx coords) (poly_miny coords)
      panel_spacing_width row_spacing panel_width panel_height
      possible_rows.toNat ppr.toNat,
    possible_rows, ppr)

/-- Candidate grid cells `(row, col)` in the loop's row-major ascending
order, used to state what the placement loop enumerates. -/
def grid_cells (nrows ncols : ℕ) : List (ℕ × ℕ) :=
  ((List.range nrows).map (fun row => (List.range ncols).map (fun col => (row, col)))).flatten

/-- APP_Pro.py lines 327–338: one pass of the erosion binary search.
`buf d` models `polygon.buffer(-d)` reduced to its area, with `none` when
the shrunk shape is empty or invalid (`not shrunk.is_empty and
shrunk.is_valid` fails); such steps leave the bracket untouched.  The result
carries (returned mid, iterations executed, early-return flag). -/
def offsetLoop (buf : ℚ → Option ℚ) (target_area tolerance : ℚ) : ℕ → ℚ → ℚ → ℚ → ℕ → ℚ × ℕ × Bool
  | 0, _, _, mid, used => (mid, used, false)
  | fuel + 1, low, high, _, used =>
    match buf ((low + high) / 2) with
    | none => offsetLoop buf target_area tolerance fuel low high ((low + high) / 2) (used + 1)
    | some area =>
      if |area - target_area| / target_area < tolerance then ((low + high) / 2, used + 1, true)
      else if area > target_area then
        offsetLoop buf target_area tolerance fuel ((low + high) / 2) high ((low + high) / 2) (used + 1)
      else
        offsetLoop buf target_area tolerance fuel low ((low + high) / 2) ((low + high) / 2) (used + 1)

/-- APP_Pro.py lines 321–338: `compute_offset_for_target_area(polygon,
target_percent, tolerance=0.01)`.  The shapely polygon is modelled by its
coordinate list (for `bounds`), its area `area_original`, and the buffering
oracle `buf`.  `low = 0`, `high = min(bbox width, bbox height) / 2`,
`mid = 0`, 30 iterations. -/
def compute_offset_for_target_area (buf : ℚ → Option ℚ) (coords : List (ℚ × ℚ)) (target_percent area_original tolerance : ℚ) : ℚ × ℕ × Bool :=
  let target_area := area_original * target_percent / 100
  let high := min (poly_maxx coords - poly_minx coords)
      (poly_maxy coords - poly_miny coords) / 2
  offsetLoop buf target_area tolerance 30 0 high 0 0

/-- APP_Pro.py lines 340–345: the caller buffers the original polygon by the
computed offset and falls back to the original polygon exactly when that
final buffered shape is empty or invalid (modelled as `none`). -/
def usable_polygon_choice {α : Type} (buffered : Option α) (original : α) : α :=
  match buffered with
  | none => original
  | some p => p

/-! ## Helper lemmas -/

theorem roundHalfEven_intCast (n : ℤ) : roundHalfEven (n : ℚ) = n := by
  unfold roundHalfEven
  rw [Int.floor_intCast]
  norm_num

theorem round2_divInt (n : ℤ) : round2 ((n : ℚ) / 100) = (n : ℚ) / 100 := by
  unfold round2
  rw [div_mul_cancel₀ (b := (100 : ℚ)) (a := (n : ℚ)) (by norm_num), roundHalfEven_intCast]

theorem round2_eq_divInt (q : ℚ) : round2 q = ((roundHalfEven (q * 100) : ℤ) : ℚ) / 100 := rfl

theorem round2_round2 (q : ℚ) : round2 (round2 q) = round2 q := by
  rw [round2_eq_divInt q, round2_divInt]

theorem roundHalfEven_add_ten (q : ℚ) : roundHalfEven (q + 10) = roundHalfEven q + 10 := by
  unfold roundHalfEven
  have hf : ⌊q + (10 : ℚ)⌋ = ⌊q⌋ + 10 := by
    have h1 := Int.floor_add_int q (10 : ℤ)
    simpa using h1
  rw [hf]
  have harg : q + 10 - ((⌊q⌋ + 10 : ℤ) : ℚ) = q - ⌊q⌋ := by push_cast; ring
  rw [harg]
  have hdvd : (2 ∣ ⌊q⌋ + 10) ↔ 2 ∣ ⌊q⌋ := by omega
  split_ifs with h1 h2 h3 h4 h5 h6 <;>
    simp_all [hdvd] <;> omega

theorem round2_add_tenth (q : ℚ) : round2 (q + 1/10) = round2 q + 1/10 := by
  unfold round2
  have harg : (q + 1/10) * 100 = q * 100 + 10 := by ring
  rw [harg, roundHalfEven_add_ten]
  push_cast
  ring

theorem frange_eq_map (start stop step : ℚ) (hs : 0 < step) :
    frange start stop step =
      (List.range (if start ≤ stop then (⌊(stop - start) / step⌋ + 1).toNat else 0)).map
        (fun k : ℕ => round2 (start + (k : ℚ) * step)) := by
  induction start, stop, step using frange.induct with
  | case1 start stop step h ih =>
    obtain ⟨hst, hle⟩ := h
    rw [frange.eq_def, dif_pos ⟨hst, hle⟩, ih hst, if_pos hle]
    have hf : (0 : ℤ) ≤ ⌊(stop - start) / step⌋ :=
      Int.floor_nonneg.mpr (div_nonneg (by linarith) hst.le)
    have heq : (stop - (start + step)) / step = (stop - start) / step - 1 := by
      field_simp
      ring
    have hfl : ⌊(stop - start) / step - 1⌋ = ⌊(stop - start) / step⌋ - 1 := by
      have h1 := Int.floor_sub_int ((stop - start) / step) 1
      simpa using h1
    by_cases h2 : start + step ≤ stop
    · have hq1 : (1 : ℚ) ≤ (stop - start) / step := by
        rw [le_div_iff₀ hst]
        linarith
      have hf1 : (1 : ℤ) ≤ ⌊(stop - start) / step⌋ := Int.le_floor.mpr (by exact_mod_cast hq1)
      rw [if_pos h2, heq, hfl]
      have hn : (⌊(stop - start) / step⌋ + 1).toNat =
          (⌊(stop - start) / step⌋ - 1 + 1).toNat + 1 := by omega
      rw [hn, List.range_succ_eq_map, List.map_cons, List.map_map]
      congr 1
      · norm_num
      · apply List.map_congr_left
        intro k _
        simp only [Function.comp_apply]
        congr 1
        push_cast
        ring
    · have hf0 : ⌊(stop - start) / step⌋ = 0 := by
        have hlt : (stop - start) / step < 1 := by
          rw [div_lt_one hst]
          linarith
        have hfa := Int.floor_lt.mpr (show (stop - start) / step < ((1 : ℤ) : ℚ) by exact_mod_cast hlt)
        omega
      rw [if_neg h2, hf0]
      have hr1 : List.range 1 = [0] := rfl
      norm_num [hr1]
  | case2 start stop step h =>
    have hnot : ¬ start ≤ stop := fun hle => h ⟨hs, hle⟩
    rw [frange.eq_def, dif_neg h, if_neg hnot]
    simp

theorem lt_sweepCount_iff (k : ℕ) (mn mx : ℚ) :
    k < sweepCount mn mx ↔ mn + (k : ℚ) * (1/10) ≤ mx + 1/100 := by
  unfold sweepCount
  by_cases hle : mn ≤ mx + 1/100
  · rw [if_pos hle]
    have hf : (0 : ℤ) ≤ ⌊(mx + 1/100 - mn) * 10⌋ :=
      Int.floor_nonneg.mpr (by nlinarith)
    constructor
    · intro hk
      have hk2 : (k : ℤ) ≤ ⌊(mx + 1/100 - mn) * 10⌋ := by omega
      have hq : (k : ℚ) ≤ (mx + 1/100 - mn) * 10 := by exact_mod_cast Int.le_floor.mp hk2
      linarith
    · intro hk
      have hq : (k : ℚ) ≤ (mx + 1/100 - mn) * 10 := by linarith
      have hk2 : (k : ℤ) ≤ ⌊(mx + 1/100 - mn) * 10⌋ := Int.le_floor.mpr (by exact_mod_cast hq)
      omega
  · rw [if_neg hle]
    push_neg at hle
    constructor
    · omega
    · intro hk
      exfalso
      have hk0 : (0 : ℚ) ≤ (k : ℚ) * (1/10) := by positivity
      linarith

theorem row_spacings_eq_map (mn mx : ℚ) :
    row_spacings mn mx =
      (List.range (sweepCount mn mx)).map (fun k : ℕ => round2 (mn + (k : ℚ) * (1/10))) := by
  unfold row_spacings sweepCount
  rw [frange_eq_map mn (mx + 1/100) (1/10) (by norm_num)]
  have hdiv : (mx + 1/100 - mn) / (1/10) = (mx + 1/100 - mn) * 10 := by
    field_simp
  rw [hdiv, List.map_map]
  apply List.map_congr_left
  intro k _
  simp only [Function.comp_apply]
  exact round2_round2 _

theorem mem_row_spacings (x mn mx : ℚ) :
    x ∈ row_spacings mn mx ↔
      ∃ k : ℕ, x = round2 (mn + (k : ℚ) * (1/10)) ∧ mn + (k : ℚ) * (1/10) ≤ mx + 1/100 := by
  rw [row_spacings_eq_map]
  simp only [List.mem_map, List.mem_range]
  constructor
  · rintro ⟨k, hk, rfl⟩
    exact ⟨k, rfl, (lt_sweepCount_iff k mn mx).mp hk⟩
  · rintro ⟨k, rfl, hk⟩
    exact ⟨k, (lt_sweepCount_iff k mn mx).mpr hk, rfl⟩

theorem row_spacings_chain (mn mx : ℚ) :
    List.Chain' (· < ·) (row_spacings mn mx) := by
  rw [row_spacings_eq_map, List.chain'_map]
  cases hn : sweepCount mn mx with
  | zero => simp
  | succ n =>
    rw [List.chain'_range_succ]
    intro m _
    have harg : mn + ((m + 1 : ℕ) : ℚ) * (1/10) = (mn + (m : ℚ) * (1/10)) + 1/10 := by
      push_cast
      ring
    rw [harg, round2_add_tenth]
    linarith

theorem round2_eq_self (q : ℚ) (n : ℤ) (h : q * 100 = (n : ℚ)) : round2 q = q := by
  unfold round2
  rw [h, roundHalfEven_intCast]
  linarith

theorem row_spacings_8_8 : row_spacings 8 8 = [8] := by
  rw [row_spacings_eq_map]
  have hc : sweepCount 8 8 = 1 := by
    unfold sweepCount
    norm_num [Int.floor_eq_iff]
  rw [hc]
  have hr1 : List.range 1 = [0] := rfl
  rw [hr1]
  simp only [List.map_cons, List.map_nil]
  norm_num
  exact round2_eq_self 8 800 (by norm_num)

theorem row_spacings_4_4 : row_spacings 4 4 = [4] := by
  rw [row_spacings_eq_map]
  have hc : sweepCount 4 4 = 1 := by
    unfold sweepCount
    norm_num [Int.floor_eq_iff]
  rw [hc]
  have hr1 : List.range 1 = [0] := rfl
  rw [hr1]
  simp only [List.map_cons, List.map_nil]
  norm_num
  exact round2_eq_self 4 400 (by norm_num)

theorem foldl_count {α : Type} (p : α → Bool) :
    ∀ (l : List α) (n : ℕ), l.foldl (fun a x => if p x then a + 1 else a) n = n + l.countP p
  | [], n => by simp
  | x :: xs, n => by
    cases hp : p x <;>
      simp [List.foldl_cons, hp, foldl_count p xs, List.countP_cons] <;> omega

theorem grid_cells_succ (nr nc : ℕ) :
    grid_cells (nr + 1) nc = grid_cells nr nc ++ (List.range nc).map (fun c => (nr, c)) := by
  unfold grid_cells
  rw [List.range_succ, List.map_append, List.flatten_append]
  simp

theorem panel_count_loop_eq (P : ℚ × ℚ × ℚ × ℚ → Bool) (minx miny psw rs pw ph : ℚ) :
    ∀ nr nc : ℕ,
      panel_count_loop P minx miny psw rs pw ph nr nc =
        (grid_cells nr nc).countP (fun rc =>
          P (panel_box (minx + (rc.2 : ℚ) * psw) (miny + (rc.1 : ℚ) * rs) pw ph))
  | 0, nc => by simp [panel_count_loop, grid_cells]
  | nr + 1, nc => by
    unfold panel_count_loop
    rw [List.range_succ, List.foldl_append]
    have hprev := panel_count_loop_eq P minx miny psw rs pw ph nr nc
    unfold panel_count_loop at hprev
    rw [hprev, grid_cells_succ, List.countP_append]
    simp only [List.foldl_cons, List.foldl_nil]
    rw [foldl_count, List.countP_map]
    congr 1

theorem placed_panels_eq (P : ℚ × ℚ × ℚ × ℚ → Bool) (minx miny psw rs pw ph : ℚ) :
    ∀ nr nc : ℕ,
      placed_panels P minx miny psw rs pw ph nr nc =
        (grid_cells nr nc).filterMap (fun rc =>
          if P (panel_box (minx + (rc.2 : ℚ) * psw) (miny + (rc.1 : ℚ) * rs) pw ph)
          then some (minx + (rc.2 : ℚ) * psw, miny + (rc.1 : ℚ) * rs) else none)
  | 0, nc => by simp [placed_panels, grid_cells]
  | nr + 1, nc => by
    unfold placed_panels
    rw [List.range_succ, List.map_append, List.flatten_append]
    have hprev := placed_panels_eq P minx miny psw rs pw ph nr nc
    unfold placed_panels at hprev
    rw [hprev, grid_cells_succ, List.filterMap_append]
    simp only [List.map_cons, List.map_nil, List.flatten_cons, List.flatten_nil,
      List.append_nil, List.filterMap_map]
    congr 1

theorem offsetLoop_none (buf : ℚ → Option ℚ) (t tol : ℚ) (hb : ∀ x, buf x = none) :
    ∀ (fuel : ℕ) (low high mid : ℚ) (used : ℕ),
      offsetLoop buf t tol fuel low high mid used =
        ((if fuel = 0 then mid else (low + high) / 2), used + fuel, false)
  | 0, low, high, mid, used => by simp [offsetLoop]
  | fuel + 1, low, high, mid, used => by
    rw [offsetLoop, hb, offsetLoop_none buf t tol hb fuel]
    cases hf : fuel with
    | zero => simp
    | succ n =>
      simp only [hf, if_neg (Nat.succ_ne_zero n)]
      norm_num
      omega

theorem offsetLoop_bound_early (buf : ℚ → Option ℚ) (t tol : ℚ) :
    ∀ (fuel : ℕ) (low high mid : ℚ) (used : ℕ),
      (offsetLoop buf t tol fuel low high mid used).2.1 ≤ used + fuel ∧
      ((offsetLoop buf t tol fuel low high mid used).2.2 = true →
        ∃ a, buf (offsetLoop buf t tol fuel low high mid used).1 = some a ∧
          |a - t| / t < tol)
  | 0, low, high, mid, used => by simp [offsetLoop]
  | fuel + 1, low, high, mid, used => by
    rw [offsetLoop]
    cases hbm : buf ((low + high) / 2) with
    | none =>
      have hrec := offsetLoop_bound_early buf t tol fuel low high ((low + high) / 2) (used + 1)
      exact ⟨le_trans hrec.1 (by omega), hrec.2⟩
    | some area =>
      dsimp only
      by_cases htol : |area - t| / t < tol
      · rw [if_pos htol]
        exact ⟨by simp, fun _ => ⟨area, hbm, htol⟩⟩
      · rw [if_neg htol]
        by_cases hgt : area > t
        · rw [if_pos hgt]
          have hrec := offsetLoop_bound_early buf t tol fuel ((low + high) / 2) high
            ((low + high) / 2) (used + 1)
          exact ⟨le_trans hrec.1 (by omega), hrec.2⟩
        · rw [if_neg hgt]
          have hrec := offsetLoop_bound_early buf t tol fuel low ((low + high) / 2)
            ((low + high) / 2) (used + 1)
          exact ⟨le_trans hrec.1 (by omega), hrec.2⟩

/-! ## Claim theorems -/

/-- C3 (confirmed): for every gcr the shading-loss fraction is the top-down
first-match band lookup with inclusive lower bounds (the source's
`estimate_shading_loss` computes exactly the spec's `shadingLossFraction` of
`panel_width / spacing`); the lookup is monotonically non-decreasing in gcr
(hence non-increasing as gcr decreases) and piecewise-constant, and at the
boundaries gcr = 0.7 yields exactly 0.12 while gcr = 0.6999 yields 0.08. -/
theorem claim_C3_shading_bands (pw s sh g₁ g₂ : ℚ) (hg : g₁ ≤ g₂) :
    estimate_shading_loss pw s sh = shadingLossFraction (pw / s) ∧
    shadingLossFraction g₁ ≤ shadingLossFraction g₂ ∧
    shadingLossFraction (7/10) = 12/100 ∧
    shadingLossFraction (6999/10000) = 8/100 := by
  refine ⟨rfl, ?_, by norm_num [shadingLossFraction], by norm_num [shadingLossFraction]⟩
  unfold shadingLossFraction
  split_ifs <;> linarith

/-- C3 witness: concrete instance of `claim_C3_shading_bands`. -/
theorem claim_C3_shading_bands_witness :
    estimate_shading_loss (11/10) 8 0 = shadingLossFraction ((11/10) / 8) ∧
    shadingLossFraction (1/2) ≤ shadingLossFraction (3/5) ∧
    shadingLossFraction (7/10) = 12/100 ∧
    shadingLossFraction (6999/10000) = 8/100 :=
  claim_C3_shading_bands (11/10) 8 0 (1/2) (3/5) (by norm_num)

/-- C5 counterexample: at rowSpacing = −1 (≤ 0) the code silently returns
the bottom shading band 0.01 instead of failing with a domain error. -/
theorem claim_C5_counterexample :
    (-1 : ℚ) ≤ 0 ∧ estimate_shading_loss_run (11/10) (-1) 0 = some (1/100) := by
  refine ⟨by norm_num, ?_⟩
  unfold estimate_shading_loss_run estimate_shading_loss
  norm_num

/-- C5 (amended): only rowSpacing = 0 makes the GCR computation fail (Python
`ZeroDivisionError`); for every negative rowSpacing the code silently
returns the lowest band 0.01 (the negative gcr falls through every branch). -/
theorem claim_C5_amended (pw sh s : ℚ) (hpw : 0 < pw) (hneg : s < 0) :
    estimate_shading_loss_run pw 0 sh = none ∧
    estimate_shading_loss_run pw s sh = some (1/100) := by
  constructor
  · unfold estimate_shading_loss_run
    simp
  · unfold estimate_shading_loss_run
    rw [if_neg (ne_of_lt hneg)]
    unfold estimate_shading_loss
    have hgcr : pw / s < 0 := div_neg_of_pos_of_neg hpw hneg
    dsimp only
    split_ifs <;> first | rfl | linarith

/-- C5 witness: concrete instance of `claim_C5_amended`. -/
theorem claim_C5_amended_witness :
    estimate_shading_loss_run (11/10) 0 0 = none ∧
    estimate_shading_loss_run (11/10) (-1) 0 = some (1/100) :=
  claim_C5_amended (11/10) 0 (-1) (by norm_num) (by norm_num)

/-- C8 (confirmed): `validate_polygon` returns true exactly when the
sequence has at least 4 points and the first and last points are
coordinate-equal; on every other input it returns false (the model is a
total function, mirroring that the source indexes `coords[0]`/`coords[-1]`
only after the length guard, so it never raises). -/
theorem claim_C8_validate_polygon (coords : List (ℚ × ℚ)) :
    validate_polygon coords = true ↔
      4 ≤ coords.length ∧ coords.head? = coords.getLast? := by
  unfold validate_polygon
  split_ifs with h1 h2
  · simp only [Bool.false_eq_true, false_iff]
    intro hc
    omega
  · simp only [Bool.false_eq_true, false_iff]
    intro hc
    exact h2 hc.2
  · simp only [true_iff]
    exact ⟨by omega, not_not.mp h2⟩

/-- C9 (confirmed): the `shadow` argument has no influence: for any two
shadow values every shading loss, sweep entry, panel count, yield and
energy figure coincides (the source's `estimate_shading_loss` never reads
its `shadow` parameter, so all downstream results are independent of
`shadow_length`'s output). -/
theorem claim_C9_shadow_independent (pw gap L W eff irr pr sh1 sh2 mn mx cap sel : ℚ)
    (ud mpr ppm : ℤ) :
    estimate_shading_loss pw sel sh1 = estimate_shading_loss pw sel sh2 ∧
    spacing_results pw gap L W eff irr pr sh1 mn mx =
      spacing_results pw gap L W eff irr pr sh2 mn mx ∧
    yield_per_panel_exact irr cap pr pw sel sh1 = yield_per_panel_exact irr cap pr pw sel sh2 ∧
    total_energy_exact irr cap pr pw sel sh1 ud mpr ppm L =
      total_energy_exact irr cap pr pw sel sh2 ud mpr ppm L :=
  ⟨rfl, rfl, rfl, rfl⟩

/-- C1 counterexample: with panel width 1.1 m, gap 0.2 m, land 230×200 m,
usable area 46000 m², irradiance 2000, performance 0.82, the sweep over the
single spacing 8 m produces the entry (8, 4284, 6955502.4); its energy is
2000·0.82·0.99·4284, which differs from the capacity formula
irradiance·panelCapacityKw·pr·(1−loss)·count with capacity 0.55 kW: the
sweep's per-panel yield omits the panel-capacity factor. -/
theorem claim_C1_counterexample :
    (spacing_results (11/10) (2/10) 230 200 46000 2000 (82/100) 0 8 8).head? =
      some (8, 4284, 34777512/5) ∧
    (34777512/5 : ℚ) ≠
      2000 * (55/100) * (82/100) * (1 - estimate_shading_loss (11/10) 8 0) * 4284 := by
  have hloss : estimate_shading_loss (11/10) 8 0 = 1/100 := by
    unfold estimate_shading_loss
    norm_num
  constructor
  · unfold spacing_results
    rw [row_spacings_8_8]
    simp only [List.map_cons, List.map_nil, List.head?_cons]
    unfold sweepBody total_panels_swept panels_per_row rows_possible
    dsimp only
    have h1 : ⌊(230 : ℚ) / 8⌋ = 28 := by norm_num [Int.floor_eq_iff]
    have h2 : ⌊(200 : ℚ) / (11/10 + 2/10)⌋ = 153 := by norm_num [Int.floor_eq_iff]
    rw [h1, h2, hloss]
    norm_num
  · rw [hloss]
    norm_num

/-- C1 (amended): the selected-spacing computation's per-panel yield is
irradiance × panelCapacityKw × performanceRatio × (1 − shadingLoss) and its
total energy is that yield times the panel count; but every entry produced
by the spacing sweep uses the per-panel yield irradiance × performanceRatio
× (1 − shadingLoss) — without the panel-capacity factor — times the entry's
panel count. -/
theorem claim_C1_amended (pw gap L W eff irr pr sh mn mx cap : ℚ)
    (ud mpr ppm : ℤ) (sel : ℚ) :
    (∀ x ∈ spacing_results pw gap L W eff irr pr sh mn mx,
      x.2.2 = irr * pr * (1 - estimate_shading_loss pw x.1 sh) * (x.2.1 : ℚ)) ∧
    total_energy_exact irr cap pr pw sel sh ud mpr ppm L =
      irr * cap * pr * (1 - estimate_shading_loss pw sel sh) *
        (total_panels_exact ud mpr ppm L sel : ℚ) := by
  constructor
  · intro x hx
    obtain ⟨s, _, rfl⟩ := List.mem_map.mp hx
    simp [sweepBody]
  · rfl

/-- C1 witness: `claim_C1_amended` applied to a sweep over the single
spacing 4 m (whose entry membership is discharged concretely) and to the
selected spacing 8 m with the repository's default parameters. -/
theorem claim_C1_amended_witness :
    (sweepBody (11/10) (2/10) 230 200 41400 2000 (82/100) 0 4).2.2 =
      2000 * (82/100) *
        (1 - estimate_shading_loss (11/10)
          (sweepBody (11/10) (2/10) 230 200 41400 2000 (82/100) 0 4).1 0) *
        ((sweepBody (11/10) (2/10) 230 200 41400 2000 (82/100) 0 4).2.1 : ℚ) ∧
    total_energy_exact 2000 (55/100) (82/100) (11/10) 8 0 0 5 10 230 =
      2000 * (55/100) * (82/100) * (1 - estimate_shading_loss (11/10) 8 0) *
        (total_panels_exact 0 5 10 230 8 : ℚ) := by
  have h := claim_C1_amended (11/10) (2/10) 230 200 41400 2000 (82/100) 0 4 4 (55/100) 0 5 10 8
  refine ⟨?_, h.2⟩
  have hmem : sweepBody (11/10) (2/10) 230 200 41400 2000 (82/100) 0 4 ∈
      spacing_results (11/10) (2/10) 230 200 41400 2000 (82/100) 0 4 4 := by
    unfold spacing_results
    rw [row_spacings_4_4]
    simp
  exact h.1 _ hmem

/-- C2 (confirmed): the fast-path packer computes rowsPossible =
⌊length/spacing⌋ and panelsPerRow = ⌊width/(panelWidth+gap)⌋, grossPanels
their product, and the returned total is the truncation of grossPanels ×
(usableArea/occupiedArea) exactly when the gross occupied area exceeds the
usable area, otherwise grossPanels; in particular length 230, spacing 8
give 28 rows and width 200, panel 1.1, gap 0.2 give 153 panels per row. -/
theorem claim_C2_fast_path (pw gap L W eff s : ℚ)
    (hL : 0 < L) (hW : 0 < W) (hs : 0 < s) (hpx : 0 < pw + gap) :
    rows_possible L s = ⌊L / s⌋ ∧
    panels_per_row W (pw + gap) = ⌊W / (pw + gap)⌋ ∧
    total_panels_swept pw gap L W eff s =
      (if ((panels_per_row W (pw + gap) * rows_possible L s : ℤ) : ℚ) * (s * (pw + gap)) > eff
       then pyInt (((panels_per_row W (pw + gap) * rows_possible L s : ℤ) : ℚ) *
         (eff / (((panels_per_row W (pw + gap) * rows_possible L s : ℤ) : ℚ) * (s * (pw + gap)))))
       else panels_per_row W (pw + gap) * rows_possible L s) ∧
    rows_possible 230 8 = 28 ∧
    panels_per_row 200 (11/10 + 2/10) = 153 := by
  refine ⟨rfl, rfl, rfl, ?_, ?_⟩
  · unfold rows_possible
    norm_num [Int.floor_eq_iff]
  · unfold panels_per_row
    norm_num [Int.floor_eq_iff]

/-- C2 witness: concrete instance of `claim_C2_fast_path` at the default
inputs. -/
theorem claim_C2_fast_path_witness :
    rows_possible 230 8 = ⌊(230 : ℚ) / 8⌋ ∧
    panels_per_row 200 (11/10 + 2/10) = ⌊(200 : ℚ) / (11/10 + 2/10)⌋ ∧
    total_panels_swept (11/10) (2/10) 230 200 41400 8 =
      (if ((panels_per_row 200 (11/10 + 2/10) * rows_possible 230 8 : ℤ) : ℚ) *
          (8 * (11/10 + 2/10)) > 41400
       then pyInt (((panels_per_row 200 (11/10 + 2/10) * rows_possible 230 8 : ℤ) : ℚ) *
         (41400 / (((panels_per_row 200 (11/10 + 2/10) * rows_possible 230 8 : ℤ) : ℚ) *
           (8 * (11/10 + 2/10)))))
       else panels_per_row 200 (11/10 + 2/10) * rows_possible 230 8) ∧
    rows_possible 230 8 = 28 ∧
    panels_per_row 200 (11/10 + 2/10) = 153 :=
  claim_C2_fast_path (11/10) (2/10) 230 200 41400 8
    (by norm_num) (by norm_num) (by norm_num) (by norm_num)

/-- C10 (confirmed): for positive land dimensions, spacing, pitch and
usable area, the area-corrected total never exceeds the gross panel count,
and whenever the gross occupied area is at most the usable area the total
equals the gross count exactly. -/
theorem claim_C10_correction_shrinks (pw gap L W eff s : ℚ)
    (hL : 0 < L) (hW : 0 < W) (hs : 0 < s) (hpx : 0 < pw + gap) (heff : 0 < eff) :
    total_panels_swept pw gap L W eff s ≤
      panels_per_row W (pw + gap) * rows_possible L s ∧
    (((panels_per_row W (pw + gap) * rows_possible L s : ℤ) : ℚ) * (s * (pw + gap)) ≤ eff →
      total_panels_swept pw gap L W eff s =
        panels_per_row W (pw + gap) * rows_possible L s) := by
  have hg0 : (0 : ℤ) ≤ panels_per_row W (pw + gap) * rows_possible L s := by
    apply mul_nonneg
    · exact Int.floor_nonneg.mpr (div_nonneg hW.le hpx.le)
    · exact Int.floor_nonneg.mpr (div_nonneg hL.le hs.le)
  set g : ℤ := panels_per_row W (pw + gap) * rows_possible L s with hgdef
  unfold total_panels_swept
  dsimp only
  rw [← hgdef]
  by_cases hbig : (g : ℚ) * (s * (pw + gap)) > eff
  · rw [if_pos hbig]
    have hA : (0 : ℚ) < (g : ℚ) * (s * (pw + gap)) := lt_trans heff hbig
    have hz0 : (0 : ℚ) ≤ (g : ℚ) * (eff / ((g : ℚ) * (s * (pw + gap)))) := by
      apply mul_nonneg
      · exact_mod_cast hg0
      · exact div_nonneg heff.le hA.le
    have hratio : eff / ((g : ℚ) * (s * (pw + gap))) ≤ 1 := by
      rw [div_le_one hA]
      linarith
    have hle : (g : ℚ) * (eff / ((g : ℚ) * (s * (pw + gap)))) ≤ (g : ℚ) := by
      calc (g : ℚ) * (eff / ((g : ℚ) * (s * (pw + gap)))) ≤ (g : ℚ) * 1 :=
            mul_le_mul_of_nonneg_left hratio (by exact_mod_cast hg0)
        _ = (g : ℚ) := mul_one _
    constructor
    · unfold pyInt
      rw [if_pos hz0]
      calc ⌊(g : ℚ) * (eff / ((g : ℚ) * (s * (pw + gap))))⌋ ≤ ⌊(g : ℚ)⌋ := Int.floor_mono hle
        _ = g := Int.floor_intCast g
    · intro hcon
      linarith
  · rw [if_neg hbig]
    exact ⟨le_refl g, fun _ => rfl⟩

/-- C10 witness: concrete instance of `claim_C10_correction_shrinks` at the
default inputs. -/
theorem claim_C10_correction_shrinks_witness :
    total_panels_swept (11/10) (2/10) 230 200 41400 8 ≤
      panels_per_row 200 (11/10 + 2/10) * rows_possible 230 8 ∧
    (((panels_per_row 200 (11/10 + 2/10) * rows_possible 230 8 : ℤ) : ℚ) *
        (8 * (11/10 + 2/10)) ≤ 41400 →
      total_panels_swept (11/10) (2/10) 230 200 41400 8 =
        panels_per_row 200 (11/10 + 2/10) * rows_possible 230 8) :=
  claim_C10_correction_shrinks (11/10) (2/10) 230 200 41400 8
    (by norm_num) (by norm_num) (by norm_num) (by norm_num) (by norm_num)

/-- C4 counterexample: with minSpacing 4, maxSpacing 4.98 and step 0.1, the
candidate spacing 5.0 satisfies 5.0 ≤ maxSpacing + step/2 = 5.03, yet the
sweep excludes it: the source's bound is `maxSpacing + 0.01`, so its last
spacing is 4.9. -/
theorem claim_C4_counterexample :
    (5 : ℚ) ≤ 498/100 + (1/10)/2 ∧ (5 : ℚ) ∉ row_spacings 4 (498/100) := by
  refine ⟨by norm_num, ?_⟩
  intro hmem
  rw [mem_row_spacings] at hmem
  obtain ⟨k, hx, hle⟩ := hmem
  have h100 : (4 + (k : ℚ) * (1/10)) * 100 = ((400 + 10 * k : ℤ) : ℚ) := by
    push_cast
    ring
  rw [round2_eq_self _ _ h100] at hx
  have hk : (k : ℚ) = 10 := by linarith
  have hk10 : k = 10 := by exact_mod_cast hk
  subst hk10
  norm_num at hle

/-- C4 (amended): the sweep produces exactly the ascending sequence
minSpacing, minSpacing + 0.1, minSpacing + 0.2, …, each rounded to 2
decimal places before use, including the k-th candidate if and only if the
unrounded accumulated value minSpacing + k·0.1 satisfies
spacing ≤ maxSpacing + 0.01 — a fixed absolute tolerance of 0.01, not
step/2. -/
theorem claim_C4_amended (mn mx : ℚ) :
    row_spacings mn mx =
      (List.range (sweepCount mn mx)).map (fun k : ℕ => round2 (mn + (k : ℚ) * (1/10))) ∧
    (∀ x : ℚ, x ∈ row_spacings mn mx ↔
      ∃ k : ℕ, x = round2 (mn + (k : ℚ) * (1/10)) ∧ mn + (k : ℚ) * (1/10) ≤ mx + 1/100) ∧
    List.Chain' (· < ·) (row_spacings mn mx) :=
  ⟨row_spacings_eq_map mn mx, fun x => mem_row_spacings x mn mx, row_spacings_chain mn mx⟩

/-- C4 witness: concrete instance of `claim_C4_amended`. -/
theorem claim_C4_amended_witness :
    row_spacings 4 4 =
      (List.range (sweepCount 4 4)).map (fun k : ℕ => round2 (4 + (k : ℚ) * (1/10))) ∧
    (∀ x : ℚ, x ∈ row_spacings 4 4 ↔
      ∃ k : ℕ, x = round2 (4 + (k : ℚ) * (1/10)) ∧ (4 : ℚ) + (k : ℚ) * (1/10) ≤ 4 + 1/100) ∧
    List.Chain' (· < ·) (row_spacings 4 4) :=
  claim_C4_amended 4 4

/-- C6 (confirmed): the polygon exact path takes rowsPossible =
⌊bboxHeight/rowSpacing⌋ and panelsPerRow = ⌊bboxWidth/(panelWidth+gap)⌋
over the axis-aligned bounding box of the usable polygon, enumerates
candidate cells with rows as ascending outer loop and columns as ascending
inner loop from the bbox minimum corner, and the placed count equals
exactly the number of candidate cells whose panel rectangle passes the
containment test; the accepted set is the deterministic filtration of the
candidate list in that order (the model is a pure function of its inputs,
so identical inputs give the identical accepted/rejected set). -/
theorem claim_C6_polygon_exact_path (P : ℚ × ℚ × ℚ × ℚ → Bool) (coords : List (ℚ × ℚ))
    (pw gap ph rs : ℚ) (hc : coords ≠ []) (hrs : 0 < rs) (hpx : 0 < pw + gap) :
    (polygon_layout P coords pw gap ph rs).2.1 =
      ⌊(poly_maxy coords - poly_miny coords) / rs⌋ ∧
    (polygon_layout P coords pw gap ph rs).2.2 =
      ⌊(poly_maxx coords - poly_minx coords) / (pw + gap)⌋ ∧
    (polygon_layout P coords pw gap ph rs).1 =
      (grid_cells (⌊(poly_maxy coords - poly_miny coords) / rs⌋).toNat
          (⌊(poly_maxx coords - poly_minx coords) / (pw + gap)⌋).toNat).countP
        (fun rc => P (panel_box (poly_minx coords + (rc.2 : ℚ) * (pw + gap))
          (poly_miny coords + (rc.1 : ℚ) * rs) pw ph)) ∧
    placed_panels P (poly_minx coords) (poly_miny coords) (pw + gap) rs pw ph
        (⌊(poly_maxy coords - poly_miny coords) / rs⌋).toNat
        (⌊(poly_maxx coords - poly_minx coords) / (pw + gap)⌋).toNat =
      (grid_cells (⌊(poly_maxy coords - poly_miny coords) / rs⌋).toNat
          (⌊(poly_maxx coords - poly_minx coords) / (pw + gap)⌋).toNat).filterMap
        (fun rc =>
          if P (panel_box (poly_minx coords + (rc.2 : ℚ) * (pw + gap))
              (poly_miny coords + (rc.1 : ℚ) * rs) pw ph)
          then some (poly_minx coords + (rc.2 : ℚ) * (pw + gap),
            poly_miny coords + (rc.1 : ℚ) * rs)
          else none) := by
  refine ⟨rfl, rfl, ?_, ?_⟩
  · exact panel_count_loop_eq P (poly_minx coords) (poly_miny coords) (pw + gap) rs pw ph _ _
  · exact placed_panels_eq P (poly_minx coords) (poly_miny coords) (pw + gap) rs pw ph _ _

/-- C6 witness: `claim_C6_polygon_exact_path` applied to a concrete square
polygon with an always-true containment test. -/
theorem claim_C6_polygon_exact_path_witness :
    ([((0 : ℚ), (0 : ℚ)), (10, 0), (10, 10), (0, 10), (0, 0)] ≠
      ([] : List (ℚ × ℚ))) ∧
    (polygon_layout (fun _ => true)
        [((0 : ℚ), (0 : ℚ)), (10, 0), (10, 10), (0, 10), (0, 0)] 1 (1/2) 2 3).2.1 =
      ⌊(poly_maxy [((0 : ℚ), (0 : ℚ)), (10, 0), (10, 10), (0, 10), (0, 0)] -
          poly_miny [((0 : ℚ), (0 : ℚ)), (10, 0), (10, 10), (0, 10), (0, 0)]) / 3⌋ :=
  ⟨by simp,
    (claim_C6_polygon_exact_path (fun _ => true)
      [((0 : ℚ), (0 : ℚ)), (10, 0), (10, 10), (0, 10), (0, 0)] 1 (1/2) 2 3
      (by simp) (by norm_num) (by norm_num)).1⟩

/-- C7 counterexample: with a buffering oracle under which every erosion
step yields an empty/invalid shape, the search on the 10×10 square polygon
does not terminate at the first failed step and does not report failure: it
runs all 30 iterations (bracket never updated) and returns the midpoint
offset 2.5 with no early-stop flag.  The fallback to the original polygon
is the caller's reaction to the final buffered shape, not a failure report
from the search. -/
theorem claim_C7_counterexample :
    compute_offset_for_target_area (fun _ => none)
        [((0 : ℚ), (0 : ℚ)), (10, 0), (10, 10), (0, 10), (0, 0)] 90 100 (1/100) =
      (5/2, 30, false) := by
  unfold compute_offset_for_target_area
  rw [offsetLoop_none _ _ _ (fun _ => rfl)]
  norm_num [poly_minx, poly_miny, poly_maxx, poly_maxy, List.foldl_cons, List.foldl_nil]

/-- C7 (amended): the erosion search is a binary search over the offset in
[0, half of the smaller bounding-box dimension] that executes at most 30
iterations; it stops early exactly with an offset whose eroded shape is
valid, non-empty and within the relative tolerance of the target area;
steps yielding an empty or invalid shape are skipped (bracket unchanged)
and the search still returns its final midpoint rather than reporting
failure; the caller's usable footprint falls back to the original polygon
exactly when the final buffered polygon is empty or invalid. -/
theorem claim_C7_amended {α : Type} (buf : ℚ → Option ℚ) (coords : List (ℚ × ℚ))
    (tp ao tol : ℚ) (bufPoly : Option α) (orig : α) :
    (compute_offset_for_target_area buf coords tp ao tol).2.1 ≤ 30 ∧
    ((compute_offset_for_target_area buf coords tp ao tol).2.2 = true →
      ∃ a, buf (compute_offset_for_target_area buf coords tp ao tol).1 = some a ∧
        |a - ao * tp / 100| / (ao * tp / 100) < tol) ∧
    (bufPoly = none → usable_polygon_choice bufPoly orig = orig) ∧
    (∀ p : α, bufPoly = some p → usable_polygon_choice bufPoly orig = p) := by
  have h := offsetLoop_bound_early buf (ao * tp / 100) tol 30 0
    (min (poly_maxx coords - poly_minx coords) (poly_maxy coords - poly_miny coords) / 2) 0 0
  refine ⟨?_, ?_, ?_, ?_⟩
  · exact h.1
  · exact h.2
  · intro hb
    subst hb
    rfl
  · intro p hb
    subst hb
    rfl

/-- C7 witness: `claim_C7_amended` at a concrete oracle that immediately
meets the tolerance, and a concrete fallback choice. -/
theorem claim_C7_amended_witness :
    (compute_offset_for_target_area (fun _ => some 90)
        [((0 : ℚ), (0 : ℚ)), (10, 0), (10, 10), (0, 10), (0, 0)] 90 100 (1/100)).2.1 ≤ 30 ∧
    ((compute_offset_for_target_area (fun _ => some 90)
        [((0 : ℚ), (0 : ℚ)), (10, 0), (10, 10), (0, 10), (0, 0)] 90 100 (1/100)).2.2 = true →
      ∃ a, (fun _ : ℚ => some (90 : ℚ))
          (compute_offset_for_target_area (fun _ => some 90)
            [((0 : ℚ), (0 : ℚ)), (10, 0), (10, 10), (0, 10), (0, 0)] 90 100 (1/100)).1 =
          some a ∧
        |a - 100 * 90 / 100| / (100 * 90 / 100) < 1/100) ∧
    ((none : Option ℚ) = none → usable_polygon_choice (none : Option ℚ) 7 = 7) ∧
    (∀ p : ℚ, (none : Option ℚ) = some p → usable_polygon_choice (none : Option ℚ) 7 = p) :=
  claim_C7_amended (fun _ => some 90)
    [((0 : ℚ), (0 : ℚ)), (10, 0), (10, 10), (0, 10), (0, 0)] 90 100 (1/100)
    (none : Option ℚ) 7
